import Mathlib

/-!
Shallow embedding of the troubleshoot repository's specification ingestion
pipeline (pkg/loader/loader.go) and conditional outcome evaluation engine
(pkg/analyze/image_signatures.go), with theorems settling the frozen claims
about them.
-/

deriving instance DecidableEq for Except

namespace Troubleshoot

/-! ### Go standard-library helpers used by the analyzer

`strings.Fields` and `strconv.Atoi` are Go standard library functions called
by `compareSignatureConditional`; they are embedded here directly. -/

/-- Go `unicode.IsSpace` restricted to the Latin-1 range, which is the
whitespace notion `strings.Fields` uses. -/
def goIsSpace (c : Char) : Bool :=
  c = ' ' || c = '\t' || c = '\n' || c = '\u000B' || c = '\u000C' || c = '\r' ||
  c = '\u0085' || c = '\u00A0'

/-- Accumulator pass of Go `strings.Fields`: `acc` is the current in-progress
word; a whitespace character ends the word (empty words are dropped). -/
def fieldsAux : List Char → List Char → List (List Char)
  | [], acc => if acc.isEmpty then [] else [acc]
  | c :: cs, acc =>
    if goIsSpace c then
      if acc.isEmpty then fieldsAux cs [] else acc :: fieldsAux cs []
    else fieldsAux cs (acc ++ [c])

/-- Go `strings.Fields`: split a string around runs of whitespace, returning
the non-empty words in order. -/
def goFields (s : String) : List String :=
  (fieldsAux s.data []).map String.mk

/-- Value of a list of decimal digit characters, most significant first. -/
def digitsVal (cs : List Char) : Nat :=
  cs.foldl (fun acc c => acc * 10 + (c.toNat - 48)) 0

/-- Largest value of Go's 64-bit `int`, the bound `strconv.Atoi` enforces. -/
def goIntMax : Int := 2 ^ 63 - 1

/-- Smallest value of Go's 64-bit `int`. -/
def goIntMin : Int := -(2 ^ 63)

/-- A non-empty all-digit character list parsed to a `Nat`, else `none`. -/
def parseDigits (cs : List Char) : Option Nat :=
  if cs ≠ [] ∧ cs.all Char.isDigit then some (digitsVal cs) else none

/-- Go `strconv.Atoi`: an optional sign followed by at least one decimal
digit, rejecting values outside the 64-bit `int` range; anything else is a
parse error, modelled as `none`. -/
def goAtoi (s : String) : Option Int :=
  match s.data with
  | '+' :: rest =>
    match parseDigits rest with
    | some n => if (n : Int) ≤ goIntMax then some (n : Int) else none
    | none => none
  | '-' :: rest =>
    match parseDigits rest with
    | some n => if goIntMin ≤ -(n : Int) then some (-(n : Int)) else none
    | none => none
  | cs =>
    match parseDigits cs with
    | some n => if (n : Int) ≤ goIntMax then some (n : Int) else none
    | none => none

/-! ### Conditional outcome evaluator (pkg/analyze/image_signatures.go) -/

/-- One branch of an outcome rule (`troubleshootv1beta2.SingleOutcome`):
a condition string, a message and a reference URI. -/
structure SingleOutcome where
  whenCond : String := ""
  message : String := ""
  uri : String := ""
deriving DecidableEq

/-- One outcome rule (`troubleshootv1beta2.Outcome`): at most one each of a
fail, warn and pass branch. -/
structure Outcome where
  fail : Option SingleOutcome := none
  warn : Option SingleOutcome := none
  pass : Option SingleOutcome := none
deriving DecidableEq

/-- The fields of `analyzer.AnalyzeResult` that the image signatures analyzer
populates. -/
structure AnalyzeResult where
  title : String := ""
  iconKey : String := ""
  isPass : Bool := false
  isFail : Bool := false
  isWarn : Bool := false
  message : String := ""
  uri : String := ""
  strict : Bool := false
deriving DecidableEq

/-- The configuration of one image signatures analyzer
(`troubleshootv1beta2.ImageSignaturesAnalyze`); `strict` stands for
`Strict.BoolOrDefaultFalse()`. -/
structure ImageSignaturesAnalyze where
  checkName : String := ""
  collectorName : String := ""
  strict : Bool := false
  outcomes : List Outcome := []
deriving DecidableEq

/-- The errors `compareSignatureConditional` can report. -/
inductive CondError where
  | unparseable (conditional : String)
  | unknownField (field : String)
  | parseValueError (valueStr : String)
  | unknownOperator (operator : String)
deriving DecidableEq

/-- The `field` switch of `compareSignatureConditional`: look the field token
up in the fact table `(numSigned, numUnsigned, numErrors)`. -/
def factValue (field : String) (numSigned numUnsigned numErrors : Int) : Option Int :=
  match field with
  | "signed" => some numSigned
  | "unsigned" => some numUnsigned
  | "errors" => some numErrors
  | _ => none

/-- `AnalyzeImageSignatures.compareSignatureConditional`: an empty condition
always matches; otherwise the condition must be exactly three
whitespace-separated tokens `field operator value`, the field must name a
fact, the value must parse as an integer, and the operator selects the
integer comparison. -/
def compareSignatureConditional (conditional : String)
    (numSigned numUnsigned numErrors : Int) : Except CondError Bool :=
  if conditional = "" then .ok true
  else
    match goFields conditional with
    | [field, operator, valueStr] =>
      match factValue field numSigned numUnsigned numErrors with
      | none => .error (.unknownField field)
      | some actualValue =>
        match goAtoi valueStr with
        | none => .error (.parseValueError valueStr)
        | some expectedValue =>
          match operator with
          | "=" | "==" | "===" => .ok (actualValue == expectedValue)
          | "!=" | "!==" => .ok (actualValue != expectedValue)
          | "<" => .ok (decide (actualValue < expectedValue))
          | "<=" => .ok (decide (actualValue ≤ expectedValue))
          | ">" => .ok (decide (actualValue > expectedValue))
          | ">=" => .ok (decide (actualValue ≥ expectedValue))
          | _ => .error (.unknownOperator operator)
    | _ => .error (.unparseable conditional)

/-- `AnalyzeImageSignatures.Title`: the check name if set, else the fixed
analyzer title. -/
def Title (a : ImageSignaturesAnalyze) : String :=
  if a.checkName ≠ "" then a.checkName else "Image Signatures"

/-- The result skeleton both analysis paths start from: title and icon key
set, everything else at its zero value. -/
def mkBase (title : String) : AnalyzeResult :=
  { title := title, iconKey := "kubernetes_image_signatures" }

/-- The fail verdict built from a fail branch. -/
def failResult (base : AnalyzeResult) (b : SingleOutcome) : AnalyzeResult :=
  { base with isFail := true, message := b.message, uri := b.uri }

/-- The warn verdict built from a warn branch. -/
def warnResult (base : AnalyzeResult) (b : SingleOutcome) : AnalyzeResult :=
  { base with isWarn := true, message := b.message, uri := b.uri }

/-- The pass verdict built from a pass branch. -/
def passResult (base : AnalyzeResult) (b : SingleOutcome) : AnalyzeResult :=
  { base with isPass := true, message := b.message, uri := b.uri }

/-- One `if outcome.X != nil { ... }` block of `evaluateSignatureOutcomes`:
evaluate the branch's condition if the branch is present; `some` result means
the branch matched and its verdict is returned. -/
def evalBranch (base : AnalyzeResult) (branch : Option SingleOutcome)
    (mk : AnalyzeResult → SingleOutcome → AnalyzeResult)
    (numSigned numUnsigned numErrors : Int) :
    Except CondError (Option AnalyzeResult) :=
  match branch with
  | none => .ok none
  | some b =>
    match compareSignatureConditional b.whenCond numSigned numUnsigned numErrors with
    | .error err => .error err
    | .ok true => .ok (some (mk base b))
    | .ok false => .ok none

/-- The body of the `evaluateSignatureOutcomes` loop for one rule: check the
fail branch, then the warn branch, then the pass branch, stopping at the
first error or match. -/
def evalOutcome (base : AnalyzeResult) (o : Outcome)
    (numSigned numUnsigned numErrors : Int) :
    Except CondError (Option AnalyzeResult) :=
  match evalBranch base o.fail failResult numSigned numUnsigned numErrors with
  | .error err => .error err
  | .ok (some r) => .ok (some r)
  | .ok none =>
    match evalBranch base o.warn warnResult numSigned numUnsigned numErrors with
    | .error err => .error err
    | .ok (some r) => .ok (some r)
    | .ok none => evalBranch base o.pass passResult numSigned numUnsigned numErrors

/-- The `for _, outcome := range a.analyzer.Outcomes` loop of
`evaluateSignatureOutcomes`: return on the first matching rule, `none` when
no rule matched. -/
def evalOutcomesLoop (base : AnalyzeResult) (numSigned numUnsigned numErrors : Int) :
    List Outcome → Except CondError (Option AnalyzeResult)
  | [] => .ok none
  | o :: rest =>
    match evalOutcome base o numSigned numUnsigned numErrors with
    | .error err => .error err
    | .ok (some r) => .ok (some r)
    | .ok none => evalOutcomesLoop base numSigned numUnsigned numErrors rest

/-- The generated message of the synthesized default pass verdict. -/
def defaultPassMessage (numSigned numUnsigned numErrors : Int) : String :=
  "Analyzed " ++ toString (numSigned + numUnsigned + numErrors) ++ " images: " ++
    toString numSigned ++ " signed, " ++ toString numUnsigned ++ " unsigned, " ++
    toString numErrors ++ " errors"

/-- `AnalyzeImageSignatures.evaluateSignatureOutcomes`: walk the rules in
order and return the first match; if no rule matches, default to a passing
result with a generated summary of the fact table. -/
def evaluateSignatureOutcomes (title : String) (outcomes : List Outcome)
    (numSigned numUnsigned numErrors : Int) : Except CondError AnalyzeResult :=
  let base := mkBase title
  match evalOutcomesLoop base numSigned numUnsigned numErrors outcomes with
  | .error err => .error err
  | .ok (some r) => .ok r
  | .ok none =>
    .ok { base with isPass := true,
                    message := defaultPassMessage numSigned numUnsigned numErrors }

/-- One signature record of the collected data (`analyzer.Signature`). -/
structure Sig where
  verified : Bool := false
  sigData : String := ""
  error : String := ""
deriving DecidableEq

/-- The collected record for one image (`analyzer.ImageSignatureData`). -/
structure ImageSignatureData where
  image : String := ""
  signatures : List Sig := []
  error : String := ""
deriving DecidableEq

/-- The counting loop of `analyzeImageSignatures`: an image with a non-empty
error counts as an error; otherwise it is signed when some signature is
verified with no error, unsigned otherwise. Returns
`(numSigned, numUnsigned, numErrors)`. -/
def countImages (images : List ImageSignatureData) : Int × Int × Int :=
  images.foldl
    (fun acc img =>
      if img.error ≠ "" then (acc.1, acc.2.1, acc.2.2 + 1)
      else if img.signatures.any (fun s => s.verified && s.error == "") then
        (acc.1 + 1, acc.2.1, acc.2.2)
      else (acc.1, acc.2.1 + 1, acc.2.2))
    ((0 : Int), (0 : Int), (0 : Int))

/-- The `err != nil || len(collectedData) == 0` branch of
`analyzeImageSignatures`: walk the outcomes for the first one with a fail
branch and return a fail verdict with its message and URI, never consulting
its condition; with no fail branch anywhere, use the fixed message. -/
def noDataResult (base : AnalyzeResult) : List Outcome → AnalyzeResult
  | [] => { base with isFail := true,
                      message := "No image signature data was collected" }
  | o :: rest =>
    match o.fail with
    | some f => { base with isFail := true, message := f.message, uri := f.uri }
    | none => noDataResult base rest

/-- Modelled from the spec: the collected artifact as `analyzeImageSignatures`
sees it. The artifact store (`getFile`/`findFiles` callbacks) and the JSON
decoder (`encoding/json`) are external, so a lookup is modelled by its
outcome: `findErr` is a failing `findFiles` call (no collector name given),
`missing` is a `getFile` error or empty content, `unparsable` is collected
bytes `json.Unmarshal` rejects, and `info` is successfully decoded data. -/
inductive CollectedSignatures where
  | findErr
  | missing
  | unparsable
  | info (images : List ImageSignatureData)
deriving DecidableEq

/-- The errors `analyzeImageSignatures` can return. -/
inductive AnalyzeError where
  | findFilesFailed
  | unmarshalFailed
  | cond (err : CondError)
deriving DecidableEq

/-- `AnalyzeImageSignatures.analyzeImageSignatures` over the modelled
artifact lookup: a failing `findFiles` is an error; missing or empty data
produces the no-data fail verdict; undecodable data is an error; decoded
data is counted and evaluated against the outcomes. -/
def analyzeImageSignatures (a : ImageSignaturesAnalyze) (c : CollectedSignatures) :
    Except AnalyzeError AnalyzeResult :=
  match c with
  | .findErr => .error .findFilesFailed
  | .missing => .ok (noDataResult (mkBase (Title a)) a.outcomes)
  | .unparsable => .error .unmarshalFailed
  | .info images =>
    let counts := countImages images
    match evaluateSignatureOutcomes (Title a) a.outcomes counts.1 counts.2.1 counts.2.2 with
    | .error err => .error (.cond err)
    | .ok r => .ok r

/-- `AnalyzeImageSignatures.Analyze`: any error from
`analyzeImageSignatures` is returned as is (with no results); otherwise the
single result is returned with the strictness flag applied. -/
def Analyze (a : ImageSignaturesAnalyze) (c : CollectedSignatures) :
    Except AnalyzeError (List AnalyzeResult) :=
  match analyzeImageSignatures a c with
  | .error err => .error err
  | .ok r => .ok [{ r with strict := a.strict }]

/-! ### Specification loader (pkg/loader/loader.go)

The loader's external collaborators — `util.SplitYAML`, the YAML
unmarshaller, the typed Kubernetes decoder and
`docrewrite.ConvertToV1Beta2` — live outside the available source tree, so a
document is modelled by the outcomes those collaborators would produce on
it; the loader's own control flow is translated from the source. -/

/-- An opaque decoded troubleshoot object: the kind it decodes to plus an
identifying payload standing for the rest of the object. `unknown` is a
decoded object that is none of the eight known troubleshoot kinds. -/
inductive TSObj where
  | analyzer (payload : String)
  | collector (payload : String)
  | hostCollector (payload : String)
  | hostPreflight (payload : String)
  | preflight (payload : String)
  | redactor (payload : String)
  | remoteCollector (payload : String)
  | supportBundle (payload : String)
  | unknown (typeName : String)
deriving DecidableEq

/-- Whether a decoded object is one of the eight known troubleshoot kinds. -/
def TSObj.isKnown : TSObj → Bool
  | .unknown _ => false
  | _ => true

/-- Modelled from the spec: a document as seen by `loadFromSplitDocs`.
`docrewrite.ConvertToV1Beta2` and the typed decoder are external, so the
document is modelled by their outcomes: conversion failure, decode failure
(each carrying the document text the wrapped error quotes), or the decoded
object. -/
inductive SplitDoc where
  | convertFail (text : String)
  | decodeFail (text : String)
  | decodes (obj : TSObj)
deriving DecidableEq

/-- Modelled from the spec: the data maps of a wrapper Secret. Embedded
payloads have already been split by the Document Splitter
(`util.SplitYAML`, external), so each recognized key maps to the list of
documents its payload splits into. -/
structure SecretData where
  data : List (String × List SplitDoc) := []
  stringData : List (String × List SplitDoc) := []
deriving DecidableEq

/-- Modelled from the spec: the data map of a wrapper ConfigMap, with
payloads already split as for `SecretData`. -/
structure ConfigMapData where
  data : List (String × List SplitDoc) := []
deriving DecidableEq

/-- Modelled from the spec: the outcome of the typed Kubernetes decoder on a
document the lightweight header parse classified as a wrapper: failure
(carrying the document text the wrapped error quotes), a Secret, a
ConfigMap, or some other object type (an invariant violation). -/
inductive WrapperDecodeResult where
  | decodeFail (text : String)
  | secretObj (s : SecretData)
  | configMapObj (cm : ConfigMapData)
  | otherObj (typeName : String)
deriving DecidableEq

/-- Modelled from the spec: one raw YAML document after splitting, as the
classification loop of `loadFromStrings` sees it. The lightweight YAML
header parse and the `isSecret`/`isConfigMap`/apiVersion classification are
modelled by the constructor: `emptyDoc` is the empty string, `malformed`
fails the lightweight parse (carrying the raw text the wrapped error
quotes), `wrapper` has a Secret/ConfigMap header and carries the typed
decoder's outcome, `direct` has a recognized troubleshoot apiVersion and
passes through carrying its later conversion/decode outcome, and `foreign`
has any other header. -/
inductive RawDoc where
  | emptyDoc
  | malformed (text : String)
  | wrapper (dec : WrapperDecodeResult)
  | direct (sd : SplitDoc)
  | foreign (kind : String)
deriving DecidableEq

/-- Modelled from the spec: the support-bundle wrapper key
(`constants.SupportBundleKey`). -/
def supportBundleKey : String := "support-bundle-spec"

/-- Modelled from the spec: the redactor wrapper key
(`constants.RedactorKey`). -/
def redactorKey : String := "redactor-spec"

/-- Modelled from the spec: the current preflight wrapper key
(`constants.PreflightKey`). -/
def preflightKey : String := "preflight-spec"

/-- Modelled from the spec: the legacy preflight wrapper key
(`constants.PreflightKey2`). -/
def preflightKey2 : String := "preflight"

/-- The errors the loader can return; each carries what the wrapped Go error
quotes. -/
inductive LoadError where
  | parseError (text : String)
  | decodeRawError (text : String)
  | notSecretOrConfigMap (typeName : String)
  | convertError (text : String)
  | decodeError (text : String)
  | unknownKind (typeName : String)
deriving DecidableEq

/-- `specLoader.getSpecFromSecret`: check the four recognized keys in the
binary data map, then the four recognized keys in the string data map,
appending the (already split) payload of every hit in that fixed order. -/
def getSpecFromSecret (secret : SecretData) : List SplitDoc :=
  let specs : List SplitDoc := []
  let specs := match secret.data.lookup supportBundleKey with
    | some docs => specs ++ docs
    | none => specs
  let specs := match secret.data.lookup redactorKey with
    | some docs => specs ++ docs
    | none => specs
  let specs := match secret.data.lookup preflightKey with
    | some docs => specs ++ docs
    | none => specs
  let specs := match secret.data.lookup preflightKey2 with
    | some docs => specs ++ docs
    | none => specs
  let specs := match secret.stringData.lookup supportBundleKey with
    | some docs => specs ++ docs
    | none => specs
  let specs := match secret.stringData.lookup redactorKey with
    | some docs => specs ++ docs
    | none => specs
  let specs := match secret.stringData.lookup preflightKey with
    | some docs => specs ++ docs
    | none => specs
  let specs := match secret.stringData.lookup preflightKey2 with
    | some docs => specs ++ docs
    | none => specs
  specs

/-- `specLoader.getSpecFromConfigMap`: check the four recognized keys in the
data map, appending the (already split) payload of every hit in order. -/
def getSpecFromConfigMap (cm : ConfigMapData) : List SplitDoc :=
  let specs : List SplitDoc := []
  let specs := match cm.data.lookup supportBundleKey with
    | some docs => specs ++ docs
    | none => specs
  let specs := match cm.data.lookup redactorKey with
    | some docs => specs ++ docs
    | none => specs
  let specs := match cm.data.lookup preflightKey with
    | some docs => specs ++ docs
    | none => specs
  let specs := match cm.data.lookup preflightKey2 with
    | some docs => specs ++ docs
    | none => specs
  specs

/-- The aggregate of parsed specs (`loader.TroubleshootKinds`), one ordered
sequence per kind. Elements are the opaque payloads of the decoded
objects. -/
structure TroubleshootKinds where
  analyzersV1Beta2 : List String := []
  collectorsV1Beta2 : List String := []
  hostCollectorsV1Beta2 : List String := []
  hostPreflightsV1Beta2 : List String := []
  preflightsV1Beta2 : List String := []
  redactorsV1Beta2 : List String := []
  remoteCollectorsV1Beta2 : List String := []
  supportBundlesV1Beta2 : List String := []
deriving DecidableEq

/-- `NewTroubleshootKinds`: the empty aggregate. -/
def NewTroubleshootKinds : TroubleshootKinds := {}

/-- `TroubleshootKinds.Len`: the sum of the lengths of the eight per-kind
sequences. -/
def TroubleshootKinds.Len (kinds : TroubleshootKinds) : Nat :=
  kinds.analyzersV1Beta2.length +
  kinds.collectorsV1Beta2.length +
  kinds.hostCollectorsV1Beta2.length +
  kinds.hostPreflightsV1Beta2.length +
  kinds.preflightsV1Beta2.length +
  kinds.redactorsV1Beta2.length +
  kinds.remoteCollectorsV1Beta2.length +
  kinds.supportBundlesV1Beta2.length

/-- `TroubleshootKinds.IsEmpty`: whether `Len` is zero. -/
def TroubleshootKinds.IsEmpty (kinds : TroubleshootKinds) : Bool :=
  kinds.Len == 0

/-- `TroubleshootKinds.Add`: append each of the other aggregate's eight
sequences to the end of the corresponding sequence (the receiver is mutated
in Go; modelled as returning the updated aggregate). -/
def TroubleshootKinds.Add (kinds other : TroubleshootKinds) : TroubleshootKinds where
  analyzersV1Beta2 := kinds.analyzersV1Beta2 ++ other.analyzersV1Beta2
  collectorsV1Beta2 := kinds.collectorsV1Beta2 ++ other.collectorsV1Beta2
  hostCollectorsV1Beta2 := kinds.hostCollectorsV1Beta2 ++ other.hostCollectorsV1Beta2
  hostPreflightsV1Beta2 := kinds.hostPreflightsV1Beta2 ++ other.hostPreflightsV1Beta2
  preflightsV1Beta2 := kinds.preflightsV1Beta2 ++ other.preflightsV1Beta2
  redactorsV1Beta2 := kinds.redactorsV1Beta2 ++ other.redactorsV1Beta2
  remoteCollectorsV1Beta2 := kinds.remoteCollectorsV1Beta2 ++ other.remoteCollectorsV1Beta2
  supportBundlesV1Beta2 := kinds.supportBundlesV1Beta2 ++ other.supportBundlesV1Beta2

/-- The dispatch of the `loadFromSplitDocs` switch for a known kind: append
the decoded object's payload to its kind's sequence (identity on `unknown`,
which the loader instead turns into a hard error). -/
def addTSObj (kinds : TroubleshootKinds) : TSObj → TroubleshootKinds
  | .analyzer x => { kinds with analyzersV1Beta2 := kinds.analyzersV1Beta2 ++ [x] }
  | .collector x => { kinds with collectorsV1Beta2 := kinds.collectorsV1Beta2 ++ [x] }
  | .hostCollector x =>
    { kinds with hostCollectorsV1Beta2 := kinds.hostCollectorsV1Beta2 ++ [x] }
  | .hostPreflight x =>
    { kinds with hostPreflightsV1Beta2 := kinds.hostPreflightsV1Beta2 ++ [x] }
  | .preflight x => { kinds with preflightsV1Beta2 := kinds.preflightsV1Beta2 ++ [x] }
  | .redactor x => { kinds with redactorsV1Beta2 := kinds.redactorsV1Beta2 ++ [x] }
  | .remoteCollector x =>
    { kinds with remoteCollectorsV1Beta2 := kinds.remoteCollectorsV1Beta2 ++ [x] }
  | .supportBundle x =>
    { kinds with supportBundlesV1Beta2 := kinds.supportBundlesV1Beta2 ++ [x] }
  | .unknown _ => kinds

/-- The loop of `specLoader.loadFromSplitDocs` with the aggregate built so
far: conversion and decode failures are skipped in non-strict mode and fatal
in strict mode; a decoded known kind is appended to its sequence; a decoded
unknown kind is fatal regardless of strictness. -/
def loadFromSplitDocsAux (strict : Bool) (kinds : TroubleshootKinds) :
    List SplitDoc → Except LoadError TroubleshootKinds
  | [] => .ok kinds
  | .convertFail text :: rest =>
    if strict then .error (.convertError text)
    else loadFromSplitDocsAux strict kinds rest
  | .decodeFail text :: rest =>
    if strict then .error (.decodeError text)
    else loadFromSplitDocsAux strict kinds rest
  | .decodes obj :: rest =>
    match obj with
    | .unknown typeName => .error (.unknownKind typeName)
    | o => loadFromSplitDocsAux strict (addTSObj kinds o) rest

/-- `specLoader.loadFromSplitDocs`: fold the split documents into a fresh
aggregate. -/
def loadFromSplitDocs (strict : Bool) (docs : List SplitDoc) :
    Except LoadError TroubleshootKinds :=
  loadFromSplitDocsAux strict NewTroubleshootKinds docs

/-- The classification loop of `specLoader.loadFromStrings`: skip empty
documents; a lightweight-parse failure is skipped in non-strict mode and
fatal in strict mode; a wrapper document is decoded (failure strict-gated)
and its extracted specs appended, with a decoded object that is neither
Secret nor ConfigMap fatal in all modes; a troubleshoot-apiVersion document
passes through; anything else is skipped. -/
def classifyDocs (strict : Bool) : List RawDoc → Except LoadError (List SplitDoc)
  | [] => .ok []
  | .emptyDoc :: rest => classifyDocs strict rest
  | .malformed text :: rest =>
    if strict then .error (.parseError text) else classifyDocs strict rest
  | .wrapper dec :: rest =>
    match dec with
    | .decodeFail text =>
      if strict then .error (.decodeRawError text) else classifyDocs strict rest
    | .configMapObj cm =>
      match classifyDocs strict rest with
      | .error err => .error err
      | .ok tl => .ok (getSpecFromConfigMap cm ++ tl)
    | .secretObj s =>
      match classifyDocs strict rest with
      | .error err => .error err
      | .ok tl => .ok (getSpecFromSecret s ++ tl)
    | .otherObj typeName => .error (.notSecretOrConfigMap typeName)
  | .direct sd :: rest =>
    match classifyDocs strict rest with
    | .error err => .error err
    | .ok tl => .ok (sd :: tl)
  | .foreign _ :: rest => classifyDocs strict rest

/-- `specLoader.loadFromStrings` over already-split documents: classify and
extract, then load the resulting split docs into an aggregate. -/
def loadFromStrings (strict : Bool) (docs : List RawDoc) :
    Except LoadError TroubleshootKinds :=
  match classifyDocs strict docs with
  | .error err => .error err
  | .ok splitdocs => loadFromSplitDocs strict splitdocs

/-- `TroubleshootKinds.ToYaml`, composed with re-splitting, as a list of
documents: every entry of every kind sequence, in field declaration order.
Modelled from the spec for the external marshaller: marshalling a decoded
spec yields a document that re-parses with the canonical troubleshoot
apiVersion and decodes back to the same kind (`ToYaml` output is itself
valid re-ingestible input). -/
def toYamlDocs (kinds : TroubleshootKinds) : List RawDoc :=
  (kinds.analyzersV1Beta2.map fun x => RawDoc.direct (.decodes (.analyzer x))) ++
  (kinds.collectorsV1Beta2.map fun x => RawDoc.direct (.decodes (.collector x))) ++
  (kinds.hostCollectorsV1Beta2.map fun x => RawDoc.direct (.decodes (.hostCollector x))) ++
  (kinds.hostPreflightsV1Beta2.map fun x => RawDoc.direct (.decodes (.hostPreflight x))) ++
  (kinds.preflightsV1Beta2.map fun x => RawDoc.direct (.decodes (.preflight x))) ++
  (kinds.redactorsV1Beta2.map fun x => RawDoc.direct (.decodes (.redactor x))) ++
  (kinds.remoteCollectorsV1Beta2.map fun x => RawDoc.direct (.decodes (.remoteCollector x))) ++
  (kinds.supportBundlesV1Beta2.map fun x => RawDoc.direct (.decodes (.supportBundle x)))

/-- The four-key extraction pass over one wrapper data map, used to state
the fixed extraction order. -/
def extractRecognizedKeys (m : List (String × List SplitDoc)) : List SplitDoc :=
  [supportBundleKey, redactorKey, preflightKey, preflightKey2].foldl
    (fun acc k =>
      match m.lookup k with
      | some docs => acc ++ docs
      | none => acc)
    []

/-- The condition string `field operator value` built from its three
tokens. -/
def mkCond (f op v : String) : String := f ++ " " ++ op ++ " " ++ v

/-- The three fact names of the image signatures fact table. -/
inductive FactName where
  | signed
  | unsigned
  | errors
deriving DecidableEq

/-- The field token of a fact name. -/
def FactName.fieldStr : FactName → String
  | .signed => "signed"
  | .unsigned => "unsigned"
  | .errors => "errors"

/-- The value a fact name selects from the fact table
`(numSigned, numUnsigned, numErrors)`. -/
def FactName.select : FactName → Int → Int → Int → Int
  | .signed, s, _, _ => s
  | .unsigned, _, u, _ => u
  | .errors, _, _, e => e

/-- The operator switch of `compareSignatureConditional`, split out to
state how a parsed condition evaluates. -/
def opApply (op : String) (a v : Int) : Except CondError Bool :=
  match op with
  | "=" | "==" | "===" => .ok (a == v)
  | "!=" | "!==" => .ok (a != v)
  | "<" => .ok (decide (a < v))
  | "<=" => .ok (decide (a ≤ v))
  | ">" => .ok (decide (a > v))
  | ">=" => .ok (decide (a ≥ v))
  | _ => .error (.unknownOperator op)

/-! ### Theorems settling the claims -/

/-- Claim C4: `Add` appends each of the second aggregate's eight per-kind
sequences to the end of the first's corresponding sequence, preserving
relative order and never shrinking any sequence; consequently `Add` is
associative; `Len` equals the sum of the lengths of the eight sequences,
so `Len` after `Add` is the sum of the operands' `Len`s; and `IsEmpty`
holds exactly when `Len` is zero. -/
theorem C4_add_len_isEmpty (A B C : TroubleshootKinds) :
    ((A.Add B).analyzersV1Beta2 = A.analyzersV1Beta2 ++ B.analyzersV1Beta2 ∧
     (A.Add B).collectorsV1Beta2 = A.collectorsV1Beta2 ++ B.collectorsV1Beta2 ∧
     (A.Add B).hostCollectorsV1Beta2 = A.hostCollectorsV1Beta2 ++ B.hostCollectorsV1Beta2 ∧
     (A.Add B).hostPreflightsV1Beta2 = A.hostPreflightsV1Beta2 ++ B.hostPreflightsV1Beta2 ∧
     (A.Add B).preflightsV1Beta2 = A.preflightsV1Beta2 ++ B.preflightsV1Beta2 ∧
     (A.Add B).redactorsV1Beta2 = A.redactorsV1Beta2 ++ B.redactorsV1Beta2 ∧
     (A.Add B).remoteCollectorsV1Beta2 = A.remoteCollectorsV1Beta2 ++ B.remoteCollectorsV1Beta2 ∧
     (A.Add B).supportBundlesV1Beta2 = A.supportBundlesV1Beta2 ++ B.supportBundlesV1Beta2) ∧
    (A.Add B).Add C = A.Add (B.Add C) ∧
    A.Len = A.analyzersV1Beta2.length + A.collectorsV1Beta2.length +
      A.hostCollectorsV1Beta2.length + A.hostPreflightsV1Beta2.length +
      A.preflightsV1Beta2.length + A.redactorsV1Beta2.length +
      A.remoteCollectorsV1Beta2.length + A.supportBundlesV1Beta2.length ∧
    (A.Add B).Len = A.Len + B.Len ∧
    (A.IsEmpty = true ↔ A.Len = 0) := by
  refine ⟨⟨rfl, rfl, rfl, rfl, rfl, rfl, rfl, rfl⟩, ?_, rfl, ?_, ?_⟩
  · simp [TroubleshootKinds.Add, List.append_assoc]
  · simp [TroubleshootKinds.Add, TroubleshootKinds.Len, List.length_append]
    omega
  · simp [TroubleshootKinds.IsEmpty, beq_iff_eq]

/-- Claim C7: for every fact table, evaluating an empty condition string
returns a match with no error, so a rule with an empty condition always
fires when reached (here: a fail rule with an empty condition at the head of
the list yields its fail verdict whatever the facts are). -/
theorem C7_empty_condition_matches (s u e : Int) (title msg uriStr : String)
    (w p : Option SingleOutcome) (rest : List Outcome) :
    compareSignatureConditional "" s u e = .ok true ∧
    evaluateSignatureOutcomes title
        ({ fail := some { whenCond := "", message := msg, uri := uriStr },
           warn := w, pass := p } :: rest) s u e =
      .ok { mkBase title with isFail := true, message := msg, uri := uriStr } := by
  constructor
  · rfl
  · simp [evaluateSignatureOutcomes, evalOutcomesLoop, evalOutcome, evalBranch,
          compareSignatureConditional, failResult]

/-- A run of non-whitespace characters extends the in-progress word. -/
theorem fieldsAux_word (w : List Char) (hw : ∀ c ∈ w, goIsSpace c = false) :
    ∀ cs acc : List Char, fieldsAux (w ++ cs) acc = fieldsAux cs (acc ++ w) := by
  induction w with
  | nil => intro cs acc; simp
  | cons c w ih =>
    intro cs acc
    have hc : goIsSpace c = false := hw c (by simp)
    have hw2 : ∀ x ∈ w, goIsSpace x = false := fun x hx => hw x (by simp [hx])
    simp only [List.cons_append, fieldsAux, hc, Bool.false_eq_true, if_false,
      List.append_eq]
    rw [ih hw2, List.append_assoc]
    rfl

/-- A space after a non-empty in-progress word emits the word. -/
theorem fieldsAux_space (cs acc : List Char) (h : acc ≠ []) :
    fieldsAux (' ' :: cs) acc = acc :: fieldsAux cs [] := by
  have hsp : goIsSpace ' ' = true := by decide
  cases acc with
  | nil => exact absurd rfl h
  | cons a as => simp [fieldsAux, hsp]

/-- The character list of a built condition string. -/
theorem mkCond_data (f op v : String) :
    (mkCond f op v).data = f.data ++ ' ' :: (op.data ++ ' ' :: v.data) := by
  simp [mkCond, String.data_append]

/-- A built condition string is never the empty string. -/
theorem mkCond_ne_empty (f op v : String) : mkCond f op v ≠ "" := by
  intro h
  have h2 := congrArg String.data h
  rw [mkCond_data] at h2
  cases hf : f.data with
  | nil => rw [hf] at h2; exact List.cons_ne_nil _ _ h2
  | cons a as => rw [hf] at h2; exact List.cons_ne_nil _ _ h2

/-- Splitting a built condition string whose three tokens are non-empty and
whitespace-free yields exactly those three tokens. -/
theorem goFields_mkCond (f op v : String)
    (hf : f.data ≠ []) (hfw : ∀ c ∈ f.data, goIsSpace c = false)
    (hop : op.data ≠ []) (hopw : ∀ c ∈ op.data, goIsSpace c = false)
    (hv : v.data ≠ []) (hvw : ∀ c ∈ v.data, goIsSpace c = false) :
    goFields (mkCond f op v) = [f, op, v] := by
  have hmk : ∀ s : String, String.mk s.data = s := fun s => rfl
  unfold goFields
  rw [mkCond_data]
  rw [fieldsAux_word f.data hfw _ []]
  rw [List.nil_append, fieldsAux_space _ _ hf]
  rw [fieldsAux_word op.data hopw _ []]
  rw [List.nil_append, fieldsAux_space _ _ hop]
  have hv2 : fieldsAux v.data [] = [v.data] := by
    have := fieldsAux_word v.data hvw [] []
    rw [List.append_nil, List.nil_append] at this
    rw [this]
    simp [fieldsAux, hv]
  rw [hv2]
  simp [hmk]

/-- A non-empty condition whose three tokens are given evaluates by looking
the field up in the fact table, parsing the value, and applying the
operator. -/
theorem compare_eq_opApply (cond f op valStr : String) (s u e a v : Int)
    (hcond : cond ≠ "")
    (h3 : goFields cond = [f, op, valStr])
    (hfv : factValue f s u e = some a)
    (hval : goAtoi valStr = some v) :
    compareSignatureConditional cond s u e = opApply op a v := by
  unfold compareSignatureConditional
  rw [if_neg hcond, h3]
  dsimp only
  rw [hfv, hval]
  rfl

/-- A condition built from a fact name, an operator token and a value token
evaluates to the operator applied to the named fact and the parsed value. -/
theorem compare_mkCond_op (fn : FactName) (op : String) (s u e v : Int)
    (valStr : String)
    (hop : op.data ≠ []) (hopw : ∀ c ∈ op.data, goIsSpace c = false)
    (hne : valStr.data ≠ []) (hnw : ∀ c ∈ valStr.data, goIsSpace c = false)
    (hval : goAtoi valStr = some v) :
    compareSignatureConditional (mkCond fn.fieldStr op valStr) s u e =
      opApply op (fn.select s u e) v := by
  have hf : fn.fieldStr.data ≠ [] := by cases fn <;> decide
  have hfw : ∀ c ∈ fn.fieldStr.data, goIsSpace c = false := by cases fn <;> decide
  have hfv : factValue fn.fieldStr s u e = some (fn.select s u e) := by
    cases fn <;> rfl
  exact compare_eq_opApply _ _ _ _ s u e _ v (mkCond_ne_empty _ _ _)
    (goFields_mkCond _ _ _ hf hfw hop hopw hne hnw) hfv hval

/-- Claim C6: for every fact table and integer value `v` (given as any
non-empty whitespace-free token that `strconv.Atoi` parses to `v`), the
operators `=`, `==` and `===` are equivalent aliases matching exactly when
the named fact equals `v`; `!=` and `!==` match exactly when it differs
from `v`; and `<`, `<=`, `>`, `>=` evaluate the corresponding integer
comparison of the fact value against `v`. -/
theorem C6_operator_semantics (fn : FactName) (s u e v : Int) (valStr : String)
    (hne : valStr.data ≠ []) (hnw : ∀ c ∈ valStr.data, goIsSpace c = false)
    (hval : goAtoi valStr = some v) :
    compareSignatureConditional (mkCond fn.fieldStr "=" valStr) s u e =
      .ok (fn.select s u e == v) ∧
    compareSignatureConditional (mkCond fn.fieldStr "==" valStr) s u e =
      .ok (fn.select s u e == v) ∧
    compareSignatureConditional (mkCond fn.fieldStr "===" valStr) s u e =
      .ok (fn.select s u e == v) ∧
    compareSignatureConditional (mkCond fn.fieldStr "!=" valStr) s u e =
      .ok (fn.select s u e != v) ∧
    compareSignatureConditional (mkCond fn.fieldStr "!==" valStr) s u e =
      .ok (fn.select s u e != v) ∧
    compareSignatureConditional (mkCond fn.fieldStr "<" valStr) s u e =
      .ok (decide (fn.select s u e < v)) ∧
    compareSignatureConditional (mkCond fn.fieldStr "<=" valStr) s u e =
      .ok (decide (fn.select s u e ≤ v)) ∧
    compareSignatureConditional (mkCond fn.fieldStr ">" valStr) s u e =
      .ok (decide (fn.select s u e > v)) ∧
    compareSignatureConditional (mkCond fn.fieldStr ">=" valStr) s u e =
      .ok (decide (fn.select s u e ≥ v)) := by
  refine ⟨?_, ?_, ?_, ?_, ?_, ?_, ?_, ?_, ?_⟩
  · exact compare_mkCond_op fn "=" s u e v valStr (by decide) (by decide) hne hnw hval
  · exact compare_mkCond_op fn "==" s u e v valStr (by decide) (by decide) hne hnw hval
  · exact compare_mkCond_op fn "===" s u e v valStr (by decide) (by decide) hne hnw hval
  · exact compare_mkCond_op fn "!=" s u e v valStr (by decide) (by decide) hne hnw hval
  · exact compare_mkCond_op fn "!==" s u e v valStr (by decide) (by decide) hne hnw hval
  · exact compare_mkCond_op fn "<" s u e v valStr (by decide) (by decide) hne hnw hval
  · exact compare_mkCond_op fn "<=" s u e v valStr (by decide) (by decide) hne hnw hval
  · exact compare_mkCond_op fn ">" s u e v valStr (by decide) (by decide) hne hnw hval
  · exact compare_mkCond_op fn ">=" s u e v valStr (by decide) (by decide) hne hnw hval

/-- Witness for C6 at the spec's example: `unsigned = 2` (and its `==` and
`===` aliases) against fact `unsigned = 2` matches. -/
theorem C6_operator_semantics_witness :
    compareSignatureConditional "unsigned = 2" 0 2 0 = .ok true ∧
    compareSignatureConditional "unsigned == 2" 0 2 0 = .ok true ∧
    compareSignatureConditional "unsigned === 2" 0 2 0 = .ok true := by
  have h := C6_operator_semantics .unsigned 0 2 0 2 "2" (by decide) (by decide)
    (by decide)
  exact ⟨h.1, h.2.1, h.2.2.1⟩

/-- Claim C5: a non-empty condition that does not split into exactly three
tokens, or whose field token is not a known fact name, or whose value token
does not parse as an integer, or whose operator token is unrecognized, is an
evaluation error; and evaluation errors propagate unchanged through
`evaluateSignatureOutcomes` and `analyzeImageSignatures` so `Analyze`
returns an error and no verdict. -/
theorem C5_evaluation_errors_are_fatal :
    (∀ (cond : String) (s u e : Int), cond ≠ "" → (goFields cond).length ≠ 3 →
      ∃ err, compareSignatureConditional cond s u e = .error err) ∧
    (∀ (cond f op val : String) (s u e : Int), cond ≠ "" →
      goFields cond = [f, op, val] →
      f ≠ "signed" → f ≠ "unsigned" → f ≠ "errors" →
      ∃ err, compareSignatureConditional cond s u e = .error err) ∧
    (∀ (cond f op val : String) (s u e : Int), cond ≠ "" →
      goFields cond = [f, op, val] → goAtoi val = none →
      ∃ err, compareSignatureConditional cond s u e = .error err) ∧
    (∀ (cond f op val : String) (s u e : Int), cond ≠ "" →
      goFields cond = [f, op, val] →
      op ∉ (["=", "==", "===", "!=", "!==", "<", "<=", ">", ">="] : List String) →
      ∃ err, compareSignatureConditional cond s u e = .error err) ∧
    (∀ (title : String) (b : SingleOutcome) (o : Outcome) (rest : List Outcome)
        (s u e : Int) (err : CondError), o.fail = some b →
      compareSignatureConditional b.whenCond s u e = .error err →
      evaluateSignatureOutcomes title (o :: rest) s u e = .error err) ∧
    (∀ (a : ImageSignaturesAnalyze) (c : CollectedSignatures) (err : AnalyzeError),
      analyzeImageSignatures a c = .error err → Analyze a c = .error err) := by
  refine ⟨?_, ?_, ?_, ?_, ?_, ?_⟩
  · intro cond s u e hc hlen
    unfold compareSignatureConditional
    rw [if_neg hc]
    rcases hg : goFields cond with _ | ⟨f, _ | ⟨op, _ | ⟨val, _ | ⟨w, l⟩⟩⟩⟩
    · exact ⟨.unparseable cond, rfl⟩
    · exact ⟨.unparseable cond, rfl⟩
    · exact ⟨.unparseable cond, rfl⟩
    · rw [hg] at hlen; simp at hlen
    · exact ⟨.unparseable cond, rfl⟩
  · intro cond f op val s u e hc hg hf1 hf2 hf3
    have hfv : factValue f s u e = none := by
      unfold factValue
      split <;> simp_all
    unfold compareSignatureConditional
    rw [if_neg hc, hg]
    dsimp only
    rw [hfv]
    exact ⟨.unknownField f, rfl⟩
  · intro cond f op val s u e hc hg hval
    unfold compareSignatureConditional
    rw [if_neg hc, hg]
    dsimp only
    cases hfv : factValue f s u e with
    | none => exact ⟨.unknownField f, rfl⟩
    | some a => rw [hval]; exact ⟨.parseValueError val, rfl⟩
  · intro cond f op val s u e hc hg hop
    unfold compareSignatureConditional
    rw [if_neg hc, hg]
    dsimp only
    cases hfv : factValue f s u e with
    | none => exact ⟨.unknownField f, rfl⟩
    | some a =>
      cases hval : goAtoi val with
      | none => exact ⟨.parseValueError val, rfl⟩
      | some v =>
        refine ⟨.unknownOperator op, ?_⟩
        split <;> simp_all
  · intro title b o rest s u e err hfail hcmp
    simp [evaluateSignatureOutcomes, evalOutcomesLoop, evalOutcome, evalBranch,
      hfail, hcmp]
  · intro a c err h
    unfold Analyze
    rw [h]

/-- Witness for C5 at the spec's example: the unknown-field condition
`bogus > 0` is an evaluation error. -/
theorem C5_evaluation_errors_are_fatal_witness :
    ∃ err, compareSignatureConditional "bogus > 0" 1 2 3 = .error err :=
  C5_evaluation_errors_are_fatal.2.1 "bogus > 0" "bogus" ">" "0" 1 2 3
    (by decide) (by decide) (by decide) (by decide) (by decide)

/-- Claim C1: the evaluator walks the rules in array order — evaluating
whichever of the fail/warn/pass branches each rule has — and returns
immediately on the first rule that matches, with that rule's verdict flag,
message and URI; with no rules left it returns a pass verdict with a
generated message summarizing the fact table; and in particular the facts
`signed=3, unsigned=1, errors=0` against the rules
`Fail when "errors > 0"`, `Pass when "signed > 0"` yield the pass verdict
with the pass rule's message and URI. -/
theorem C1_first_match_evaluation (title : String) (s u e : Int) (o : Outcome)
    (rest : List Outcome) :
    (evaluateSignatureOutcomes title [] s u e =
      .ok { mkBase title with
            isPass := true
            message := defaultPassMessage s u e }) ∧
    (∀ r, evalOutcome (mkBase title) o s u e = .ok (some r) →
      evaluateSignatureOutcomes title (o :: rest) s u e = .ok r) ∧
    (evalOutcome (mkBase title) o s u e = .ok none →
      evaluateSignatureOutcomes title (o :: rest) s u e =
        evaluateSignatureOutcomes title rest s u e) ∧
    (∀ m1 u1 m2 u2 : String,
      evaluateSignatureOutcomes title
        [{ fail := some { whenCond := "errors > 0", message := m1, uri := u1 } },
         { pass := some { whenCond := "signed > 0", message := m2, uri := u2 } }]
        3 1 0 =
      .ok { mkBase title with isPass := true, message := m2, uri := u2 }) := by
  refine ⟨rfl, ?_, ?_, ?_⟩
  · intro r h
    simp [evaluateSignatureOutcomes, evalOutcomesLoop, h]
  · intro h
    simp [evaluateSignatureOutcomes, evalOutcomesLoop, h]
  · intro m1 u1 m2 u2
    have h1 : compareSignatureConditional "errors > 0" 3 1 0 = .ok false := by decide
    have h2 : compareSignatureConditional "signed > 0" 3 1 0 = .ok true := by decide
    simp [evaluateSignatureOutcomes, evalOutcomesLoop, evalOutcome, evalBranch,
      h1, h2, passResult]

/-- Witness for C1: a fail rule with an unconditionally matching condition at
the head of the list yields its fail verdict immediately. -/
theorem C1_first_match_evaluation_witness :
    evaluateSignatureOutcomes "t"
      [{ fail := some { whenCond := "", message := "m", uri := "u" } }] 0 0 0 =
      .ok { mkBase "t" with isFail := true, message := "m", uri := "u" } :=
  (C1_first_match_evaluation "t" 0 0 0
    { fail := some { whenCond := "", message := "m", uri := "u" } } []).2.1
    { mkBase "t" with isFail := true, message := "m", uri := "u" } (by decide)

/-- No-data analysis returns the verdict of the first outcome with a fail
branch (message and URI from that branch, its condition never evaluated),
or the fixed-message fail verdict when no outcome has one. -/
theorem noDataResult_spec (base : AnalyzeResult) (outcomes : List Outcome) :
    (∀ b, outcomes.findSome? (fun o => o.fail) = some b →
      noDataResult base outcomes =
        { base with isFail := true, message := b.message, uri := b.uri }) ∧
    (outcomes.findSome? (fun o => o.fail) = none →
      noDataResult base outcomes =
        { base with
          isFail := true
          message := "No image signature data was collected" }) := by
  induction outcomes with
  | nil => exact ⟨fun b h => by simp [List.findSome?] at h, fun _ => rfl⟩
  | cons o rest ih =>
    cases hf : o.fail with
    | some f =>
      constructor
      · intro b h
        rw [List.findSome?_cons] at h
        rw [hf] at h
        cases h
        simp [noDataResult, hf]
      · intro h
        rw [List.findSome?_cons, hf] at h
        cases h
    | none =>
      constructor
      · intro b h
        rw [List.findSome?_cons, hf] at h
        simp [noDataResult, hf, ih.1 b h]
      · intro h
        rw [List.findSome?_cons, hf] at h
        simp [noDataResult, hf, ih.2 h]

/-- Claim C10: when no collected signature data is found, the analyzer
returns a fail verdict taken from the first outcome with a fail branch —
using that branch's message and URI without evaluating its condition — or,
with no fail branch anywhere, a fail verdict with the fixed message; in
this path the analysis never errors and `Analyze` returns the single
verdict. -/
theorem C10_no_data_fail_path (a : ImageSignaturesAnalyze) :
    (∀ b, a.outcomes.findSome? (fun o => o.fail) = some b →
      analyzeImageSignatures a .missing =
        .ok { mkBase (Title a) with
              isFail := true
              message := b.message
              uri := b.uri }) ∧
    (a.outcomes.findSome? (fun o => o.fail) = none →
      analyzeImageSignatures a .missing =
        .ok { mkBase (Title a) with
              isFail := true
              message := "No image signature data was collected" }) ∧
    (∃ r, analyzeImageSignatures a .missing = .ok r ∧
      Analyze a .missing = .ok [{ r with strict := a.strict }]) := by
  refine ⟨?_, ?_, ?_⟩
  · intro b h
    show Except.ok (noDataResult (mkBase (Title a)) a.outcomes) = _
    rw [(noDataResult_spec (mkBase (Title a)) a.outcomes).1 b h]
  · intro h
    show Except.ok (noDataResult (mkBase (Title a)) a.outcomes) = _
    rw [(noDataResult_spec (mkBase (Title a)) a.outcomes).2 h]
  · exact ⟨noDataResult (mkBase (Title a)) a.outcomes, rfl, rfl⟩

/-- Witness for C10: with data missing, a rule list whose first fail branch
carries an unparseable condition still yields that branch's fail verdict —
the condition is never evaluated. -/
theorem C10_no_data_fail_path_witness :
    analyzeImageSignatures
      { checkName := "c",
        outcomes :=
          [{ warn := some { whenCond := "signed > 0", message := "w", uri := "wu" } },
           { fail := some { whenCond := "not a valid cond !", message := "fm", uri := "fu" } }] }
      .missing =
      .ok { mkBase "c" with isFail := true, message := "fm", uri := "fu" } :=
  (C10_no_data_fail_path
    { checkName := "c",
      outcomes :=
        [{ warn := some { whenCond := "signed > 0", message := "w", uri := "wu" } },
         { fail := some { whenCond := "not a valid cond !", message := "fm", uri := "fu" } }] }).1
    { whenCond := "not a valid cond !", message := "fm", uri := "fu" } (by decide)

/-- Loading a split doc that decodes to a known kind appends it and
continues. -/
theorem loadAux_decodes_known (strict : Bool) (kinds : TroubleshootKinds)
    (o : TSObj) (rest : List SplitDoc) (h : o.isKnown = true) :
    loadFromSplitDocsAux strict kinds (.decodes o :: rest) =
      loadFromSplitDocsAux strict (addTSObj kinds o) rest := by
  cases o <;> first
    | rfl
    | simp [TSObj.isKnown] at h

/-- Claim C2: for a batch holding one malformed document between two
well-formed troubleshoot documents, a non-strict load returns exactly the
aggregate of the two well-formed entries with no error, while a strict load
of the same batch returns the error carrying the malformed document's raw
text and no aggregate. -/
theorem C2_strict_vs_lenient (t : String) (o1 o2 : TSObj)
    (h1 : o1.isKnown = true) (h2 : o2.isKnown = true) :
    loadFromStrings false [.direct (.decodes o1), .malformed t, .direct (.decodes o2)] =
      .ok (addTSObj (addTSObj NewTroubleshootKinds o1) o2) ∧
    loadFromStrings true [.direct (.decodes o1), .malformed t, .direct (.decodes o2)] =
      .error (.parseError t) := by
  constructor
  · have hc : classifyDocs false
        [.direct (.decodes o1), .malformed t, .direct (.decodes o2)] =
        .ok [.decodes o1, .decodes o2] := by
      simp [classifyDocs]
    unfold loadFromStrings
    rw [hc]
    dsimp only
    unfold loadFromSplitDocs
    rw [loadAux_decodes_known false _ o1 _ h1, loadAux_decodes_known false _ o2 _ h2]
    rfl
  · have hc : classifyDocs true
        [.direct (.decodes o1), .malformed t, .direct (.decodes o2)] =
        .error (.parseError t) := by
      simp [classifyDocs]
    unfold loadFromStrings
    rw [hc]

/-- Witness for C2 at a concrete batch: a support bundle, a piece of junk,
and a redactor. -/
theorem C2_strict_vs_lenient_witness :
    loadFromStrings false
      [.direct (.decodes (.supportBundle "sb")), .malformed "junk: [",
       .direct (.decodes (.redactor "r"))] =
      .ok (addTSObj (addTSObj NewTroubleshootKinds (.supportBundle "sb"))
        (.redactor "r")) ∧
    loadFromStrings true
      [.direct (.decodes (.supportBundle "sb")), .malformed "junk: [",
       .direct (.decodes (.redactor "r"))] =
      .error (.parseError "junk: [") :=
  C2_strict_vs_lenient "junk: [" (.supportBundle "sb") (.redactor "r") rfl rfl

/-- A batch containing a wrapper that decodes to neither Secret nor
ConfigMap always classifies to an error, in both modes. -/
theorem classify_otherObj_error (strict : Bool) (docs1 docs2 : List RawDoc)
    (t : String) :
    ∃ err, classifyDocs strict (docs1 ++ .wrapper (.otherObj t) :: docs2) =
      .error err := by
  induction docs1 with
  | nil => exact ⟨.notSecretOrConfigMap t, rfl⟩
  | cons d docs1 ih =>
    obtain ⟨err, herr⟩ := ih
    cases d with
    | emptyDoc => exact ⟨err, herr⟩
    | malformed text =>
      cases strict with
      | true => exact ⟨.parseError text, rfl⟩
      | false => exact ⟨err, herr⟩
    | wrapper dec =>
      cases dec with
      | decodeFail text =>
        cases strict with
        | true => exact ⟨.decodeRawError text, rfl⟩
        | false => exact ⟨err, herr⟩
      | configMapObj cm => exact ⟨err, by simp [classifyDocs, herr]⟩
      | secretObj sec => exact ⟨err, by simp [classifyDocs, herr]⟩
      | otherObj tn => exact ⟨.notSecretOrConfigMap tn, rfl⟩
    | direct sd => exact ⟨err, by simp [classifyDocs, herr]⟩
    | foreign k => exact ⟨err, herr⟩

/-- A split-doc list containing a decoded unknown kind always loads to an
error, in both modes, from any starting aggregate. -/
theorem loadAux_unknown_error (strict : Bool) (t : String) :
    ∀ (l1 : List SplitDoc) (kinds : TroubleshootKinds) (l2 : List SplitDoc),
    ∃ err, loadFromSplitDocsAux strict kinds
      (l1 ++ .decodes (.unknown t) :: l2) = .error err := by
  intro l1
  induction l1 with
  | nil => intro kinds l2; exact ⟨.unknownKind t, rfl⟩
  | cons d l1 ih =>
    intro kinds l2
    cases d with
    | convertFail text =>
      cases strict with
      | true => exact ⟨.convertError text, rfl⟩
      | false => exact ih kinds l2
    | decodeFail text =>
      cases strict with
      | true => exact ⟨.decodeError text, rfl⟩
      | false => exact ih kinds l2
    | decodes o =>
      cases o with
      | unknown tn => exact ⟨.unknownKind tn, rfl⟩
      | analyzer x => exact ih _ l2
      | collector x => exact ih _ l2
      | hostCollector x => exact ih _ l2
      | hostPreflight x => exact ih _ l2
      | preflight x => exact ih _ l2
      | redactor x => exact ih _ l2
      | remoteCollector x => exact ih _ l2
      | supportBundle x => exact ih _ l2

/-- A direct document in a successfully classified batch appears in the
resulting split-doc list. -/
theorem classify_direct_mem (strict : Bool) (sd : SplitDoc) :
    ∀ (docs1 docs2 : List RawDoc) (l : List SplitDoc),
    classifyDocs strict (docs1 ++ .direct sd :: docs2) = .ok l →
    ∃ l1 l2, l = l1 ++ sd :: l2 := by
  intro docs1
  induction docs1 with
  | nil =>
    intro docs2 l h
    rw [List.nil_append] at h
    simp only [classifyDocs, List.append_eq] at h
    cases hc : classifyDocs strict docs2 with
    | error err => rw [hc] at h; simp at h
    | ok tl =>
      rw [hc] at h
      simp only [Except.ok.injEq] at h
      exact ⟨[], tl, h.symm⟩
  | cons d docs1 ih =>
    intro docs2 l h
    cases d with
    | emptyDoc => exact ih docs2 l h
    | malformed text =>
      cases strict with
      | true => simp [classifyDocs] at h
      | false => exact ih docs2 l h
    | wrapper dec =>
      cases dec with
      | decodeFail text =>
        cases strict with
        | true => simp [classifyDocs] at h
        | false => exact ih docs2 l h
      | configMapObj cm =>
        simp only [classifyDocs, List.append_eq] at h
        cases hc : classifyDocs strict (docs1 ++ .direct sd :: docs2) with
        | error err => rw [hc] at h; simp at h
        | ok tl =>
          rw [hc] at h
          simp only [Except.ok.injEq] at h
          obtain ⟨l1, l2, hl⟩ := ih docs2 tl hc
          exact ⟨getSpecFromConfigMap cm ++ l1, l2, by
            rw [← h, hl, List.append_assoc]⟩
      | secretObj sec =>
        simp only [classifyDocs, List.append_eq] at h
        cases hc : classifyDocs strict (docs1 ++ .direct sd :: docs2) with
        | error err => rw [hc] at h; simp at h
        | ok tl =>
          rw [hc] at h
          simp only [Except.ok.injEq] at h
          obtain ⟨l1, l2, hl⟩ := ih docs2 tl hc
          exact ⟨getSpecFromSecret sec ++ l1, l2, by
            rw [← h, hl, List.append_assoc]⟩
      | otherObj tn => simp [classifyDocs] at h
    | direct sd2 =>
      simp only [classifyDocs, List.append_eq] at h
      cases hc : classifyDocs strict (docs1 ++ .direct sd :: docs2) with
      | error err => rw [hc] at h; simp at h
      | ok tl =>
        rw [hc] at h
        simp only [Except.ok.injEq] at h
        obtain ⟨l1, l2, hl⟩ := ih docs2 tl hc
        exact ⟨sd2 :: l1, l2, by rw [← h, hl]; rfl⟩
    | foreign k => exact ih docs2 l h

/-- Claim C9: invariant violations are fatal in both modes — a batch
containing a wrapper document that decodes to an object that is neither a
Secret nor a ConfigMap, or a document that decodes to none of the eight
known troubleshoot kinds, always loads to an error (no aggregate),
whatever the strict flag. -/
theorem C9_invariant_violations_fatal (strict : Bool) (docs1 docs2 : List RawDoc)
    (t : String) :
    (∃ err, loadFromStrings strict
      (docs1 ++ .wrapper (.otherObj t) :: docs2) = .error err) ∧
    (∃ err, loadFromStrings strict
      (docs1 ++ .direct (.decodes (.unknown t)) :: docs2) = .error err) := by
  constructor
  · obtain ⟨err, herr⟩ := classify_otherObj_error strict docs1 docs2 t
    exact ⟨err, by simp [loadFromStrings, herr]⟩
  · cases hc : classifyDocs strict (docs1 ++ .direct (.decodes (.unknown t)) :: docs2) with
    | error err => exact ⟨err, by simp [loadFromStrings, hc]⟩
    | ok l =>
      obtain ⟨l1, l2, rfl⟩ :=
        classify_direct_mem strict (.decodes (.unknown t)) docs1 docs2 l hc
      obtain ⟨err, herr⟩ := loadAux_unknown_error strict t l1 NewTroubleshootKinds l2
      exact ⟨err, by simp [loadFromStrings, hc, loadFromSplitDocs, herr]⟩

/-- Claim C8: wrapper-Secret extraction checks the four recognized keys in
the binary data map first and then in the string data map, appending every
hit in that fixed order; consequently a Secret carrying both a
support-bundle key and a redactor key in its data map yields, in one load,
an aggregate with a non-empty SupportBundle sequence and a non-empty
Redactor sequence. -/
theorem C8_secret_both_keys (strict : Bool) (x y : String) :
    (∀ sec : SecretData, getSpecFromSecret sec =
      extractRecognizedKeys sec.data ++ extractRecognizedKeys sec.stringData) ∧
    (∃ kinds, loadFromStrings strict
        [.wrapper (.secretObj
          { data := [(supportBundleKey, [.decodes (.supportBundle x)]),
                     (redactorKey, [.decodes (.redactor y)])],
            stringData := [] })] = .ok kinds ∧
      kinds.supportBundlesV1Beta2 ≠ [] ∧ kinds.redactorsV1Beta2 ≠ []) := by
  constructor
  · intro sec
    unfold getSpecFromSecret extractRecognizedKeys
    simp only [List.foldl]
    cases h1 : sec.data.lookup supportBundleKey <;>
    cases h2 : sec.data.lookup redactorKey <;>
    cases h3 : sec.data.lookup preflightKey <;>
    cases h4 : sec.data.lookup preflightKey2 <;>
    cases h5 : sec.stringData.lookup supportBundleKey <;>
    cases h6 : sec.stringData.lookup redactorKey <;>
    cases h7 : sec.stringData.lookup preflightKey <;>
    cases h8 : sec.stringData.lookup preflightKey2 <;>
    simp [h1, h2, h3, h4, h5, h6, h7, h8, List.append_assoc]
  · refine ⟨addTSObj (addTSObj NewTroubleshootKinds (.supportBundle x)) (.redactor y),
      ?_, by simp [addTSObj, NewTroubleshootKinds], by simp [addTSObj, NewTroubleshootKinds]⟩
    have hsec : getSpecFromSecret
        { data := [(supportBundleKey, [.decodes (.supportBundle x)]),
                   (redactorKey, [.decodes (.redactor y)])],
          stringData := [] } =
        [.decodes (.supportBundle x), .decodes (.redactor y)] := by
      unfold getSpecFromSecret
      simp [List.lookup, supportBundleKey, redactorKey, preflightKey, preflightKey2]
    have hc : classifyDocs strict
        [.wrapper (.secretObj
          { data := [(supportBundleKey, [.decodes (.supportBundle x)]),
                     (redactorKey, [.decodes (.redactor y)])],
            stringData := [] })] =
        .ok [.decodes (.supportBundle x), .decodes (.redactor y)] := by
      simp only [classifyDocs, hsec]
      rfl
    unfold loadFromStrings
    rw [hc]
    dsimp only
    unfold loadFromSplitDocs
    rw [loadAux_decodes_known strict _ (.supportBundle x) _ rfl,
      loadAux_decodes_known strict _ (.redactor y) _ rfl]
    rfl

/-- Loading a run of decoded analyzer docs appends their payloads to the analyzer
sequence. -/
theorem loadAux_map_analyzer (strict : Bool) (l : List String) :
    ∀ (kinds : TroubleshootKinds) (rest : List SplitDoc),
    loadFromSplitDocsAux strict kinds
      ((l.map fun x => SplitDoc.decodes (.analyzer x)) ++ rest) =
    loadFromSplitDocsAux strict
      { kinds with analyzersV1Beta2 := kinds.analyzersV1Beta2 ++ l } rest := by
  induction l with
  | nil => intro kinds rest; cases kinds; simp
  | cons x l ih =>
    intro kinds rest
    rw [List.map_cons, List.cons_append,
      loadAux_decodes_known strict kinds (.analyzer x) _ rfl, ih]
    simp [addTSObj, List.append_assoc]

/-- Loading a run of decoded collector docs appends their payloads to the collector
sequence. -/
theorem loadAux_map_collector (strict : Bool) (l : List String) :
    ∀ (kinds : TroubleshootKinds) (rest : List SplitDoc),
    loadFromSplitDocsAux strict kinds
      ((l.map fun x => SplitDoc.decodes (.collector x)) ++ rest) =
    loadFromSplitDocsAux strict
      { kinds with collectorsV1Beta2 := kinds.collectorsV1Beta2 ++ l } rest := by
  induction l with
  | nil => intro kinds rest; cases kinds; simp
  | cons x l ih =>
    intro kinds rest
    rw [List.map_cons, List.cons_append,
      loadAux_decodes_known strict kinds (.collector x) _ rfl, ih]
    simp [addTSObj, List.append_assoc]

/-- Loading a run of decoded hostCollector docs appends their payloads to the hostCollector
sequence. -/
theorem loadAux_map_hostCollector (strict : Bool) (l : List String) :
    ∀ (kinds : TroubleshootKinds) (rest : List SplitDoc),
    loadFromSplitDocsAux strict kinds
      ((l.map fun x => SplitDoc.decodes (.hostCollector x)) ++ rest) =
    loadFromSplitDocsAux strict
      { kinds with hostCollectorsV1Beta2 := kinds.hostCollectorsV1Beta2 ++ l } rest := by
  induction l with
  | nil => intro kinds rest; cases kinds; simp
  | cons x l ih =>
    intro kinds rest
    rw [List.map_cons, List.cons_append,
      loadAux_decodes_known strict kinds (.hostCollector x) _ rfl, ih]
    simp [addTSObj, List.append_assoc]

/-- Loading a run of decoded hostPreflight docs appends their payloads to the hostPreflight
sequence. -/
theorem loadAux_map_hostPreflight (strict : Bool) (l : List String) :
    ∀ (kinds : TroubleshootKinds) (rest : List SplitDoc),
    loadFromSplitDocsAux strict kinds
      ((l.map fun x => SplitDoc.decodes (.hostPreflight x)) ++ rest) =
    loadFromSplitDocsAux strict
      { kinds with hostPreflightsV1Beta2 := kinds.hostPreflightsV1Beta2 ++ l } rest := by
  induction l with
  | nil => intro kinds rest; cases kinds; simp
  | cons x l ih =>
    intro kinds rest
    rw [List.map_cons, List.cons_append,
      loadAux_decodes_known strict kinds (.hostPreflight x) _ rfl, ih]
    simp [addTSObj, List.append_assoc]

/-- Loading a run of decoded preflight docs appends their payloads to the preflight
sequence. -/
theorem loadAux_map_preflight (strict : Bool) (l : List String) :
    ∀ (kinds : TroubleshootKinds) (rest : List SplitDoc),
    loadFromSplitDocsAux strict kinds
      ((l.map fun x => SplitDoc.decodes (.preflight x)) ++ rest) =
    loadFromSplitDocsAux strict
      { kinds with preflightsV1Beta2 := kinds.preflightsV1Beta2 ++ l } rest := by
  induction l with
  | nil => intro kinds rest; cases kinds; simp
  | cons x l ih =>
    intro kinds rest
    rw [List.map_cons, List.cons_append,
      loadAux_decodes_known strict kinds (.preflight x) _ rfl, ih]
    simp [addTSObj, List.append_assoc]

/-- Loading a run of decoded redactor docs appends their payloads to the redactor
sequence. -/
theorem loadAux_map_redactor (strict : Bool) (l : List String) :
    ∀ (kinds : TroubleshootKinds) (rest : List SplitDoc),
    loadFromSplitDocsAux strict kinds
      ((l.map fun x => SplitDoc.decodes (.redactor x)) ++ rest) =
    loadFromSplitDocsAux strict
      { kinds with redactorsV1Beta2 := kinds.redactorsV1Beta2 ++ l } rest := by
  induction l with
  | nil => intro kinds rest; cases kinds; simp
  | cons x l ih =>
    intro kinds rest
    rw [List.map_cons, List.cons_append,
      loadAux_decodes_known strict kinds (.redactor x) _ rfl, ih]
    simp [addTSObj, List.append_assoc]

/-- Loading a run of decoded remoteCollector docs appends their payloads to the remoteCollector
sequence. -/
theorem loadAux_map_remoteCollector (strict : Bool) (l : List String) :
    ∀ (kinds : TroubleshootKinds) (rest : List SplitDoc),
    loadFromSplitDocsAux strict kinds
      ((l.map fun x => SplitDoc.decodes (.remoteCollector x)) ++ rest) =
    loadFromSplitDocsAux strict
      { kinds with remoteCollectorsV1Beta2 := kinds.remoteCollectorsV1Beta2 ++ l } rest := by
  induction l with
  | nil => intro kinds rest; cases kinds; simp
  | cons x l ih =>
    intro kinds rest
    rw [List.map_cons, List.cons_append,
      loadAux_decodes_known strict kinds (.remoteCollector x) _ rfl, ih]
    simp [addTSObj, List.append_assoc]

/-- Loading a run of decoded supportBundle docs appends their payloads to the supportBundle
sequence. -/
theorem loadAux_map_supportBundle (strict : Bool) (l : List String) :
    ∀ (kinds : TroubleshootKinds) (rest : List SplitDoc),
    loadFromSplitDocsAux strict kinds
      ((l.map fun x => SplitDoc.decodes (.supportBundle x)) ++ rest) =
    loadFromSplitDocsAux strict
      { kinds with supportBundlesV1Beta2 := kinds.supportBundlesV1Beta2 ++ l } rest := by
  induction l with
  | nil => intro kinds rest; cases kinds; simp
  | cons x l ih =>
    intro kinds rest
    rw [List.map_cons, List.cons_append,
      loadAux_decodes_known strict kinds (.supportBundle x) _ rfl, ih]
    simp [addTSObj, List.append_assoc]

/-- A list of direct documents classifies to exactly its split docs. -/
theorem classify_direct_list (strict : Bool) : ∀ l : List SplitDoc,
    classifyDocs strict (l.map RawDoc.direct) = .ok l := by
  intro l
  induction l with
  | nil => rfl
  | cons sd l ih => simp [classifyDocs, ih]

/-- Re-ingesting the serialized documents of any aggregate reproduces that
aggregate exactly, in either mode. -/
theorem load_toYamlDocs (strict : Bool) (kinds : TroubleshootKinds) :
    loadFromStrings strict (toYamlDocs kinds) = .ok kinds := by
  obtain ⟨f1, f2, f3, f4, f5, f6, f7, f8⟩ := kinds
  have hmap : toYamlDocs ⟨f1, f2, f3, f4, f5, f6, f7, f8⟩ =
      ((f1.map fun x => SplitDoc.decodes (.analyzer x)) ++
       ((f2.map fun x => SplitDoc.decodes (.collector x)) ++
        ((f3.map fun x => SplitDoc.decodes (.hostCollector x)) ++
         ((f4.map fun x => SplitDoc.decodes (.hostPreflight x)) ++
          ((f5.map fun x => SplitDoc.decodes (.preflight x)) ++
           ((f6.map fun x => SplitDoc.decodes (.redactor x)) ++
            ((f7.map fun x => SplitDoc.decodes (.remoteCollector x)) ++
             ((f8.map fun x => SplitDoc.decodes (.supportBundle x)) ++
              [])))))))).map RawDoc.direct := by
    simp [toYamlDocs, List.map_append, List.map_map, Function.comp_def]
  unfold loadFromStrings
  rw [hmap, classify_direct_list]
  dsimp only
  unfold loadFromSplitDocs
  rw [loadAux_map_analyzer, loadAux_map_collector, loadAux_map_hostCollector,
    loadAux_map_hostPreflight, loadAux_map_preflight, loadAux_map_redactor,
    loadAux_map_remoteCollector, loadAux_map_supportBundle]
  simp [loadFromSplitDocsAux, NewTroubleshootKinds]

/-- Claim C3: an aggregate obtained from a successful load, serialized with
`ToYaml` and re-ingested, yields an aggregate with the same `Len` and the
same length for each of the eight per-kind sequences. -/
theorem C3_roundtrip (strict strict2 : Bool) (docs : List RawDoc)
    (kinds : TroubleshootKinds) (h : loadFromStrings strict docs = .ok kinds) :
    ∃ kinds2, loadFromStrings strict2 (toYamlDocs kinds) = .ok kinds2 ∧
      kinds2.Len = kinds.Len ∧
      kinds2.analyzersV1Beta2.length = kinds.analyzersV1Beta2.length ∧
      kinds2.collectorsV1Beta2.length = kinds.collectorsV1Beta2.length ∧
      kinds2.hostCollectorsV1Beta2.length = kinds.hostCollectorsV1Beta2.length ∧
      kinds2.hostPreflightsV1Beta2.length = kinds.hostPreflightsV1Beta2.length ∧
      kinds2.preflightsV1Beta2.length = kinds.preflightsV1Beta2.length ∧
      kinds2.redactorsV1Beta2.length = kinds.redactorsV1Beta2.length ∧
      kinds2.remoteCollectorsV1Beta2.length = kinds.remoteCollectorsV1Beta2.length ∧
      kinds2.supportBundlesV1Beta2.length = kinds.supportBundlesV1Beta2.length :=
  ⟨kinds, load_toYamlDocs strict2 kinds, rfl, rfl, rfl, rfl, rfl, rfl, rfl, rfl, rfl⟩

/-- Witness for C3 at a concrete load of one analyzer and one redactor. -/
theorem C3_roundtrip_witness :
    ∃ kinds2, loadFromStrings true
      (toYamlDocs { analyzersV1Beta2 := ["a"], redactorsV1Beta2 := ["r"] }) =
        .ok kinds2 ∧
      kinds2.Len =
        TroubleshootKinds.Len { analyzersV1Beta2 := ["a"], redactorsV1Beta2 := ["r"] } ∧
      kinds2.analyzersV1Beta2.length = 1 ∧
      kinds2.collectorsV1Beta2.length = 0 ∧
      kinds2.hostCollectorsV1Beta2.length = 0 ∧
      kinds2.hostPreflightsV1Beta2.length = 0 ∧
      kinds2.preflightsV1Beta2.length = 0 ∧
      kinds2.redactorsV1Beta2.length = 1 ∧
      kinds2.remoteCollectorsV1Beta2.length = 0 ∧
      kinds2.supportBundlesV1Beta2.length = 0 :=
  C3_roundtrip false true
    [.direct (.decodes (.analyzer "a")), .direct (.decodes (.redactor "r"))]
    { analyzersV1Beta2 := ["a"], redactorsV1Beta2 := ["r"] } (by decide)
